import Mathlib

/-!
Verification development for the critical-alert-service admission pipeline.

Python strings are modelled as lists of Unicode code points (`PyStr`), the
`OrderedDict` used by the two policy stores as an association list in recency
order (head = least recently touched, last = most recently touched), and
`time.time()` as a rational number supplied explicitly to each operation.
External collaborators (the JSON schema validator, `hashlib.sha256`, the HTTP
transport, the upstream mailmux client) enter as parameters or abstract
outcome values, exactly at the boundaries in `server.py`.
-/

/-- A Python `str`: a sequence of Unicode code points. -/
abbrev PyStr := List Nat

/-- Convert a Lean string literal into the code-point model. -/
def pystr (s : String) : PyStr := s.data.map Char.toNat

/-- Whitespace test used by Python `str.strip`/`str.split` (ASCII subset:
space, tab, newline, carriage return, vertical tab, form feed). -/
def pyWs (n : Nat) : Bool :=
  decide (n = 32 ∨ n = 9 ∨ n = 10 ∨ n = 13 ∨ n = 11 ∨ n = 12)

/-- One code point of Python `str.lower` (ASCII letters). -/
def pyLowerChar (n : Nat) : Nat :=
  if 65 ≤ n ∧ n ≤ 90 then n + 32 else n

/-- Python `str.lower`. -/
def pyLower (s : PyStr) : PyStr := s.map pyLowerChar

/-- Drop the leading whitespace run. -/
def wsDropFront : PyStr → PyStr
  | [] => []
  | c :: rest => if pyWs c then wsDropFront rest else c :: rest

/-- Python `str.strip()`: drop leading and trailing whitespace. -/
def pyStrip (s : PyStr) : PyStr :=
  ((wsDropFront ((wsDropFront s).reverse)).reverse)

/-- Accumulator worker for Python `str.split()` (split on whitespace runs,
no empty words). `acc` holds the current word reversed. -/
def splitAux : PyStr → PyStr → List PyStr
  | [], acc => if acc = [] then [] else [acc.reverse]
  | c :: rest, acc =>
    if pyWs c then
      if acc = [] then splitAux rest [] else acc.reverse :: splitAux rest []
    else splitAux rest (c :: acc)

/-- Python `str.split()` with no arguments. -/
def pySplit (s : PyStr) : List PyStr := splitAux s []

/-- Python `" ".join(words)`. -/
def joinWords : List PyStr → PyStr
  | [] => []
  | [w] => w
  | w :: rest => w ++ 32 :: joinWords rest

/-- Python `"|".join(parts)` (code point 124 is the bar). -/
def joinBar : List PyStr → PyStr
  | [] => []
  | [w] => w
  | w :: rest => w ++ 124 :: joinBar rest

/-- Embeds `policy._normalize_text`: `" ".join(value.strip().split())`. -/
def _normalize_text (value : PyStr) : PyStr :=
  joinWords (pySplit (pyStrip value))

/-- Embeds `policy._normalize_key_part`: `value.strip().lower()`. -/
def _normalize_key_part (value : PyStr) : PyStr :=
  pyLower (pyStrip value)

/-- The alert fields consumed by the embedded policy code
(`policy.dedupe_key` / `policy.rate_limit_key`). -/
structure Alert where
  service : PyStr
  environment : PyStr
  error_code : PyStr
  summary : PyStr
  resource : PyStr
deriving DecidableEq

/-- Embeds `policy.dedupe_key`. The parameter `sha` stands for the external
`hashlib.sha256(combined.encode("utf-8")).hexdigest()` step. -/
def dedupe_key (sha : PyStr → PyStr) (alert : Alert) : PyStr :=
  sha (joinBar [
    _normalize_key_part alert.service,
    _normalize_key_part alert.environment,
    _normalize_key_part alert.error_code,
    _normalize_key_part alert.resource,
    _normalize_text alert.summary])

/-- Embeds `policy.rate_limit_key`. -/
def rate_limit_key (alert : Alert) : PyStr :=
  joinBar [
    _normalize_key_part alert.service,
    _normalize_key_part alert.error_code]

/-- Python `int(...)` on a float/rational: truncation toward zero. -/
def pytrunc (q : ℚ) : ℤ := if 0 ≤ q then ⌊q⌋ else ⌈q⌉

/-! ### The `OrderedDict` model

An association list in recency order: head = least recently touched
(first candidate for `popitem(last=False)`), last = most recently touched. -/

/-- Association list standing for a Python `OrderedDict`. -/
abbrev OD (κ α : Type) := List (κ × α)

/-- Model of `d.get(k)`. -/
def odGet {κ α : Type} [DecidableEq κ] : OD κ α → κ → Option α
  | [], _ => none
  | p :: rest, k => if p.1 = k then some p.2 else odGet rest k

/-- First entry with key `k`, if any. -/
def odFind {κ α : Type} [DecidableEq κ] : OD κ α → κ → Option (κ × α)
  | [], _ => none
  | p :: rest, k => if p.1 = k then some p else odFind rest k

/-- Remove every entry with key `k`. -/
def odRemoveAll {κ α : Type} [DecidableEq κ] : OD κ α → κ → OD κ α
  | [], _ => []
  | p :: rest, k => if p.1 = k then odRemoveAll rest k else p :: odRemoveAll rest k

/-- Model of `d[k] = v`: update in place when `k` is present (keeping its position),
otherwise append at the most-recent end. -/
def odSet {κ α : Type} [DecidableEq κ] (d : OD κ α) (k : κ) (v : α) : OD κ α :=
  match odFind d k with
  | some _ => d.map (fun p => if p.1 = k then (k, v) else p)
  | none => d ++ [(k, v)]

/-- Model of `d.move_to_end(k)` (the store only calls it on a present key). -/
def odMoveToEnd {κ α : Type} [DecidableEq κ] (d : OD κ α) (k : κ) : OD κ α :=
  match odFind d k with
  | some p => odRemoveAll d k ++ [p]
  | none => d

/-- Model of `while len(d) > max_keys: d.popitem(last=False)`. -/
def odEvict {κ α : Type} (max_keys : Nat) (d : OD κ α) : OD κ α :=
  if max_keys < d.length then odEvict max_keys d.tail else d
termination_by d.length
decreasing_by
  cases d with
  | nil => simp at *
  | cons a t => simp

/-! ### The two policy stores (`policy.py`) -/

/-- Embeds `policy.DedupeResult`. -/
structure DedupeResult where
  deduped : Bool
  dedupe_key : PyStr
  retry_after : Option ℤ
deriving DecidableEq

/-- Embeds the `policy.DedupeStore` state: `_window`, `_max_keys`, `_store`. -/
structure DedupeStore where
  window : ℤ
  max_keys : Nat
  store : OD PyStr ℚ
deriving DecidableEq

/-- Embeds `DedupeStore.__init__`. -/
def DedupeStore.init (window_seconds : ℤ) (max_keys : Nat) : DedupeStore :=
  ⟨window_seconds, max_keys, []⟩

/-- Embeds `DedupeStore.check` (`now` stands for the `time.time()` sample). -/
def DedupeStore.check (s : DedupeStore) (key : PyStr) (now : ℚ) :
    DedupeResult × DedupeStore :=
  if s.window = 0 then (⟨false, key, none⟩, s)
  else
    match odGet s.store key with
    | some ts =>
      if now - ts < (s.window : ℚ) then
        let remaining := pytrunc ((s.window : ℚ) - (now - ts))
        (⟨true, key, some (max 0 remaining)⟩,
          { s with store := odMoveToEnd s.store key })
      else
        (⟨false, key, none⟩,
          { s with store := odEvict s.max_keys (odMoveToEnd (odSet s.store key now) key) })
    | none =>
      (⟨false, key, none⟩,
        { s with store := odEvict s.max_keys (odMoveToEnd (odSet s.store key now) key) })

/-- Embeds `policy.RateLimitResult`. -/
structure RateLimitResult where
  rate_limited : Bool
  key : PyStr
  retry_after : Option ℤ
  reset_at : Option ℤ
deriving DecidableEq

/-- Embeds the `policy.RateLimiter` state: `_max`, `_window`, `_max_keys`, `_store`. -/
structure RateLimiter where
  max_per_window : Nat
  window : ℤ
  max_keys : Nat
  store : OD PyStr (ℚ × Nat)
deriving DecidableEq

/-- Embeds `RateLimiter.__init__`. -/
def RateLimiter.init (max_per_window : Nat) (window_seconds : ℤ) (max_keys : Nat) :
    RateLimiter :=
  ⟨max_per_window, window_seconds, max_keys, []⟩

/-- Embeds `RateLimiter.check` (`now` stands for the `time.time()` sample). -/
def RateLimiter.check (s : RateLimiter) (key : PyStr) (now : ℚ) :
    RateLimitResult × RateLimiter :=
  if s.max_per_window = 0 then (⟨false, key, none, none⟩, s)
  else
    match odGet s.store key with
    | none =>
      (⟨false, key, none, none⟩,
        { s with store := odEvict s.max_keys (odMoveToEnd (odSet s.store key (now, 1)) key) })
    | some (window_start, count) =>
      if now - window_start ≥ (s.window : ℚ) then
        (⟨false, key, none, none⟩,
          { s with store :=
              odEvict s.max_keys (odMoveToEnd (odSet s.store key (now, 1)) key) })
      else
        if count ≥ s.max_per_window then
          let reset_at := pytrunc (window_start + (s.window : ℚ))
          let retry_after := pytrunc (max 0 (window_start + (s.window : ℚ) - now))
          (⟨true, key, some retry_after, some reset_at⟩,
            { s with store := odMoveToEnd s.store key })
        else
          (⟨false, key, none, none⟩,
            { s with store :=
                odEvict s.max_keys (odMoveToEnd (odSet s.store key (window_start, count + 1)) key) })

/-! ### The HTTP handler (`server.py`)

The transport layer is abstracted away: a `Request` carries the already
decoded pieces the handler reads (path, `Content-Type`, `Authorization`,
the configured secret header's value, and the `_read_body`/`json.loads`
outcome), and the response is reduced to the status code, error code, and
upstream-status fields the handler puts into `_send_json`. -/

/-- The `Config` fields consumed by the embedded handler code. -/
structure CasConfig where
  auth_mode : String
  auth_bearer_tokens : List PyStr
  auth_shared_secret : Option PyStr
  dedupe_window_seconds : ℤ
  rate_limit_max : Nat
  rate_limit_window_seconds : ℤ
  policy_store_max_keys : Nat

/-- Embeds `server._extract_bearer_token`. -/
def _extract_bearer_token (auth_header : Option PyStr) : Option PyStr :=
  match auth_header with
  | none => none
  | some s =>
    if s = [] then none
    else
      match pySplit s with
      | [p0, p1] => if pyLower p0 = pystr ("bearer") then some p1 else none
      | _ => none

/-- Embeds `token_valid` of `Handler._auth_ok`:
`token in config.auth_bearer_tokens if token else False`. -/
def token_valid (cfg : CasConfig) (auth_header : Option PyStr) : Bool :=
  match _extract_bearer_token auth_header with
  | none => false
  | some t => if t = [] then false else decide (t ∈ cfg.auth_bearer_tokens)

/-- Embeds `secret_valid` of `Handler._auth_ok`:
`secret_header_value == config.auth_shared_secret if secret_header_value else False`. -/
def secret_valid (cfg : CasConfig) (secret_header_value : Option PyStr) : Bool :=
  match secret_header_value with
  | none => false
  | some v => if v = [] then false else decide (some v = cfg.auth_shared_secret)

/-- Embeds `Handler._auth_ok`. -/
def _auth_ok (cfg : CasConfig) (auth_header secret_header_value : Option PyStr) : Bool :=
  if cfg.auth_mode = "token" then token_valid cfg auth_header
  else if cfg.auth_mode = "secret" then secret_valid cfg secret_header_value
  else if cfg.auth_mode = "either" then
    token_valid cfg auth_header || secret_valid cfg secret_header_value
  else if cfg.auth_mode = "both" then
    token_valid cfg auth_header && secret_valid cfg secret_header_value
  else false

/-- Outcome of `Handler._read_body` followed by `json.loads`. -/
inductive Body where
  /-- Case: `_read_body` returned the error `"too_large"`. -/
  | tooLarge : Body
  /-- Case: `_read_body` returned the error `"invalid content-length"`. -/
  | invalidLength : Body
  /-- Case: `json.loads` raised `JSONDecodeError`. -/
  | badJson : Body
  /-- a decoded JSON object (the fields the policy code reads). -/
  | json (a : Alert) : Body
deriving DecidableEq

/-- An inbound request as seen by `Handler.do_POST`. -/
structure Request where
  path : String
  contentType : PyStr
  authorization : Option PyStr
  secretHeader : Option PyStr
  body : Body
deriving DecidableEq

/-- The stable error codes of `server.py`. -/
inductive ErrCode where
  | UNSUPPORTED_MEDIA_TYPE | AUTH_INVALID | PAYLOAD_TOO_LARGE
  | JSON_INVALID | SCHEMA_INVALID | DEDUPED | RATE_LIMITED
  | MAILMUX_TIMEOUT | MAILMUX_FAILED | INTERNAL
deriving DecidableEq

/-- The observable response: HTTP status, error code (absent on success and
on the bare 404), `details.upstream_status` / `mailmux.status`, and whether
the body is the `DELIVERED` success envelope. -/
structure Response where
  status : Nat
  code : Option ErrCode
  upstream_status : Option Nat
  delivered : Bool
deriving DecidableEq

/-- Outcome of the `send_mailmux` call as classified by the handler's
`try/except` arms. -/
inductive MailmuxOutcome where
  /-- Case: `requests.Timeout` raised. -/
  | timeout : MailmuxOutcome
  /-- another `requests.RequestException` raised. -/
  | requestError : MailmuxOutcome
  /-- a response arrived with this status code. -/
  | ok (status : Nat) : MailmuxOutcome
  /-- any other exception escaped, reaching the outer `except Exception`. -/
  | raised : MailmuxOutcome
deriving DecidableEq

/-- Embeds `Handler.do_POST` on path/media/auth/body/schema/dedupe/rate/upstream, in
source order. `validate` stands for the external `schema.validate_alert`
verdict, `sha` for the hash inside `dedupe_key`, `upstream` for the
`send_mailmux` outcome, and `nowD`/`nowR` for the `time.time()` samples taken
inside the two store checks. Returns the response and both stores' states. -/
def do_POST (cfg : CasConfig) (sha : PyStr → PyStr) (validate : Alert → Bool)
    (upstream : MailmuxOutcome) (nowD nowR : ℚ)
    (ds : DedupeStore) (rl : RateLimiter) (req : Request) :
    Response × DedupeStore × RateLimiter :=
  if req.path ≠ "/v1/alerts" then
    (⟨404, none, none, false⟩, ds, rl)
  else if !((pystr ("application/json")).isPrefixOf (pyLower req.contentType)) then
    (⟨415, some ErrCode.UNSUPPORTED_MEDIA_TYPE, none, false⟩, ds, rl)
  else if !(_auth_ok cfg req.authorization req.secretHeader) then
    (⟨401, some ErrCode.AUTH_INVALID, none, false⟩, ds, rl)
  else
    match req.body with
    | Body.tooLarge => (⟨413, some ErrCode.PAYLOAD_TOO_LARGE, none, false⟩, ds, rl)
    | Body.invalidLength => (⟨400, some ErrCode.JSON_INVALID, none, false⟩, ds, rl)
    | Body.badJson => (⟨400, some ErrCode.JSON_INVALID, none, false⟩, ds, rl)
    | Body.json a =>
      if !(validate a) then
        (⟨400, some ErrCode.SCHEMA_INVALID, none, false⟩, ds, rl)
      else
        let dres := ds.check (dedupe_key sha a) nowD
        if dres.1.deduped then
          (⟨409, some ErrCode.DEDUPED, none, false⟩, dres.2, rl)
        else
          let rres := rl.check (rate_limit_key a) nowR
          if rres.1.rate_limited then
            (⟨429, some ErrCode.RATE_LIMITED, none, false⟩, dres.2, rres.2)
          else
            match upstream with
            | MailmuxOutcome.timeout =>
              (⟨504, some ErrCode.MAILMUX_TIMEOUT, none, false⟩, dres.2, rres.2)
            | MailmuxOutcome.requestError =>
              (⟨502, some ErrCode.MAILMUX_FAILED, some 0, false⟩, dres.2, rres.2)
            | MailmuxOutcome.ok st =>
              if 200 ≤ st ∧ st < 300 then
                (⟨202, none, some st, true⟩, dres.2, rres.2)
              else
                (⟨502, some ErrCode.MAILMUX_FAILED, some st, false⟩, dres.2, rres.2)
            | MailmuxOutcome.raised =>
              (⟨500, some ErrCode.INTERNAL, none, false⟩, dres.2, rres.2)

/-- A sequence of `RateLimiter.check` calls on one key at the given times:
whether every call was Accepted, and the final state. -/
def rlCalls : RateLimiter → PyStr → List ℚ → Bool × RateLimiter
  | s, _, [] => (true, s)
  | s, k, t :: rest =>
    let r := s.check k t
    let next := rlCalls r.2 k rest
    (!r.1.rate_limited && next.1, next.2)

/-! ### Operation sequences on the stores -/

/-- Run a sequence of `(key, time)` checks against a `RateLimiter`. -/
def rlRunOps (s : RateLimiter) (ops : List (PyStr × ℚ)) : RateLimiter :=
  ops.foldl (fun st op => (st.check op.1 op.2).2) s

/-- Run a sequence of `(key, time)` checks against a `DedupeStore`. -/
def dsRunOps (s : DedupeStore) (ops : List (PyStr × ℚ)) : DedupeStore :=
  ops.foldl (fun st op => (st.check op.1 op.2).2) s

/-- Concrete dedupe store used by the C6 witness. -/
def c6Store : DedupeStore := ⟨10, 2, [(pystr ("k"), 0)]⟩

/-- Alert, config, and request used by the pipeline witnesses. -/
def wAlert : Alert :=
  ⟨pystr ("api"), pystr ("prod"), pystr ("E1"), pystr ("down"), pystr ("r1")⟩

def wCfg : CasConfig := ⟨"token", [pystr ("tok-0123456789")], none, 120, 30, 60, 10000⟩

def wReq : Request := ⟨"/v1/alerts", pystr ("application/json"),
  some (pystr ("Bearer tok-0123456789")), none, Body.json wAlert⟩

/-- A dedupe store already holding the fingerprint of `wAlert`. -/
def wDsHit : DedupeStore := ⟨120, 100, [(dedupe_key (fun s => s) wAlert, 0)]⟩

/-- Spec-side reading of the token sub-check: a non-empty bearer token is
presented and is a member of the configured allow-list. -/
def specTokenValid (cfg : CasConfig) (auth_header : Option PyStr) : Prop :=
  ∃ t, _extract_bearer_token auth_header = some t ∧ ¬(t = []) ∧
    t ∈ cfg.auth_bearer_tokens

/-- Spec-side reading of the secret sub-check: the secret header is
presented and its value exactly equals the configured shared secret. -/
def specSecretValid (cfg : CasConfig) (secret_header_value : Option PyStr) : Prop :=
  ∃ v, secret_header_value = some v ∧ cfg.auth_shared_secret = some v

/-! ### Claim-side relations for key normalization (C7) -/

/-- Every code point of `l` is whitespace. -/
def allWs (l : PyStr) : Prop := ∀ c ∈ l, pyWs c = true

/-- The relation: `s` and `t` differ only in letter case and/or leading-and-trailing
whitespace: both are a common core (up to letter case) surrounded by
whitespace. -/
def CaseWsVariant (s t : PyStr) : Prop :=
  ∃ l₁ c₁ r₁ l₂ c₂ r₂, allWs l₁ ∧ allWs r₁ ∧ allWs l₂ ∧ allWs r₂ ∧
    pyLower c₁ = pyLower c₂ ∧ s = l₁ ++ c₁ ++ r₁ ∧ t = l₂ ++ c₂ ++ r₂

/-- The relation: `core` is exactly the given nonempty whitespace-free words separated by
nonempty whitespace runs, with no surrounding whitespace. -/
inductive WordsCore : List PyStr → PyStr → Prop
  | nil : WordsCore [] []
  | last (w : PyStr) : ¬(w = []) → (∀ c ∈ w, pyWs c = false) → WordsCore [w] w
  | cons (w sep rest : PyStr) (ws : List PyStr) :
      ¬(w = []) → (∀ c ∈ w, pyWs c = false) →
      ¬(sep = []) → allWs sep →
      ¬(ws = []) → WordsCore ws rest →
      WordsCore (w :: ws) (w ++ sep ++ rest)

/-- The relation: `s` is the word list `ws` with arbitrary surrounding and internal
(run-length ≥ 1) whitespace. -/
def Padded (ws : List PyStr) (s : PyStr) : Prop :=
  ∃ lead core trail, allWs lead ∧ allWs trail ∧ WordsCore ws core ∧
    s = lead ++ core ++ trail

/-- Alerts used by the C7 witness: equal up to case and whitespace. -/
def c7a : Alert := ⟨pystr ("  Payments "), pystr ("PROD"), pystr ("DB_DOWN"),
  pystr ("db  down"), pystr (" srv-1 ")⟩

def c7b : Alert := ⟨pystr ("payments"), pystr (" prod"), pystr ("db_down "),
  pystr (" db down "), pystr ("SRV-1")⟩

/-! ### Lemmas about the `OrderedDict` model -/

theorem odGet_eq_find {κ α : Type} [DecidableEq κ] (d : OD κ α) (k : κ) :
    odGet d k = (odFind d k).map Prod.snd := by
  induction d with
  | nil => rfl
  | cons p t ih => by_cases h : p.1 = k <;> simp [odGet, odFind, h, ih]

theorem odFind_eq_key {κ α : Type} [DecidableEq κ] {d : OD κ α} {k : κ} {p : κ × α}
    (h : odFind d k = some p) : p.1 = k := by
  induction d with
  | nil => simp [odFind] at h
  | cons q t ih =>
    by_cases hq : q.1 = k
    · simp [odFind, hq] at h
      rw [← h]; exact hq
    · simp [odFind, hq] at h
      exact ih h

theorem odFind_mem {κ α : Type} [DecidableEq κ] {d : OD κ α} {k : κ} {p : κ × α}
    (h : odFind d k = some p) : p ∈ d := by
  induction d with
  | nil => simp [odFind] at h
  | cons q t ih =>
    by_cases hq : q.1 = k
    · simp [odFind, hq] at h
      simp [← h]
    · simp [odFind, hq] at h
      exact List.mem_cons_of_mem _ (ih h)

theorem odGet_eq_none_iff {κ α : Type} [DecidableEq κ] {d : OD κ α} {k : κ} :
    odGet d k = none ↔ ∀ p ∈ d, ¬(p.1 = k) := by
  induction d with
  | nil => simp [odGet]
  | cons q t ih => by_cases h : q.1 = k <;> simp [odGet, h, ih]

theorem odGet_removeAll_self {κ α : Type} [DecidableEq κ] (d : OD κ α) (k : κ) :
    odGet (odRemoveAll d k) k = none := by
  induction d with
  | nil => rfl
  | cons q t ih => by_cases h : q.1 = k <;> simp [odRemoveAll, odGet, h, ih]

theorem odRemoveAll_subset {κ α : Type} [DecidableEq κ] {d : OD κ α} {k : κ} {p : κ × α}
    (h : p ∈ odRemoveAll d k) : p ∈ d := by
  induction d with
  | nil => simp [odRemoveAll] at h
  | cons q t ih =>
    by_cases hq : q.1 = k
    · simp [odRemoveAll, hq] at h
      exact List.mem_cons_of_mem _ (ih h)
    · simp [odRemoveAll, hq] at h
      rcases h with h | h
      · simp [h]
      · exact List.mem_cons_of_mem _ (ih h)

theorem odRemoveAll_length_le {κ α : Type} [DecidableEq κ] (d : OD κ α) (k : κ) :
    (odRemoveAll d k).length ≤ d.length := by
  induction d with
  | nil => simp [odRemoveAll]
  | cons q t ih => by_cases h : q.1 = k <;> simp [odRemoveAll, h] <;> omega

theorem odRemoveAll_length_lt {κ α : Type} [DecidableEq κ] {d : OD κ α} {k : κ} {p : κ × α}
    (h : odFind d k = some p) : (odRemoveAll d k).length < d.length := by
  induction d with
  | nil => simp [odFind] at h
  | cons q t ih =>
    by_cases hq : q.1 = k
    · simp [odRemoveAll, hq]
      have := odRemoveAll_length_le t k
      omega
    · simp [odFind, hq] at h
      simp [odRemoveAll, hq]
      exact ih h

theorem odGet_append_of_none {κ α : Type} [DecidableEq κ] {d : OD κ α} {k : κ}
    (l : OD κ α) (h : odGet d k = none) : odGet (d ++ l) k = odGet l k := by
  induction d with
  | nil => rfl
  | cons q t ih =>
    by_cases hq : q.1 = k
    · simp [odGet, hq] at h
    · simp [odGet, hq] at h ⊢
      exact ih h

theorem odFind_append_of_none {κ α : Type} [DecidableEq κ] {d : OD κ α} {k : κ}
    (l : OD κ α) (h : odGet d k = none) : odFind (d ++ l) k = odFind l k := by
  induction d with
  | nil => rfl
  | cons q t ih =>
    by_cases hq : q.1 = k
    · simp [odGet, hq] at h
    · simp [odGet, hq] at h
      simp [odFind, hq]
      exact ih h

theorem odFind_map_set {κ α : Type} [DecidableEq κ] {d : OD κ α} {k : κ} {p : κ × α}
    (v : α) (h : odFind d k = some p) :
    odFind (d.map (fun q => if q.1 = k then (k, v) else q)) k = some (k, v) := by
  induction d with
  | nil => simp [odFind] at h
  | cons q t ih =>
    by_cases hq : q.1 = k
    · simp [odFind, hq]
    · simp [odFind, hq] at h
      simp [odFind, hq]
      exact ih h

theorem odFind_set_self {κ α : Type} [DecidableEq κ] (d : OD κ α) (k : κ) (v : α) :
    odFind (odSet d k v) k = some (k, v) := by
  unfold odSet
  cases hf : odFind d k with
  | none =>
    have hg : odGet d k = none := by rw [odGet_eq_find, hf]; rfl
    rw [odFind_append_of_none _ hg]
    simp [odFind]
  | some p => exact odFind_map_set v hf

theorem odGet_set_self {κ α : Type} [DecidableEq κ] (d : OD κ α) (k : κ) (v : α) :
    odGet (odSet d k v) k = some v := by
  rw [odGet_eq_find, odFind_set_self]; rfl

theorem odSet_mem {κ α : Type} [DecidableEq κ] {d : OD κ α} {k : κ} {v : α} {p : κ × α}
    (h : p ∈ odSet d k v) : p ∈ d ∨ p = (k, v) := by
  unfold odSet at h
  cases hf : odFind d k with
  | none =>
    rw [hf] at h
    rcases List.mem_append.mp h with h | h
    · exact Or.inl h
    · simp at h; exact Or.inr h
  | some q =>
    rw [hf] at h
    rcases List.mem_map.mp h with ⟨r, hr, hrp⟩
    by_cases hk : r.1 = k
    · simp [hk] at hrp; exact Or.inr hrp.symm
    · simp [hk] at hrp; exact Or.inl (hrp ▸ hr)

theorem odMoveToEnd_subset {κ α : Type} [DecidableEq κ] {d : OD κ α} {k : κ} {p : κ × α}
    (h : p ∈ odMoveToEnd d k) : p ∈ d := by
  unfold odMoveToEnd at h
  cases hf : odFind d k with
  | none => rw [hf] at h; exact h
  | some q =>
    rw [hf] at h
    rcases List.mem_append.mp h with h | h
    · exact odRemoveAll_subset h
    · simp at h; exact h ▸ odFind_mem hf

theorem odMoveToEnd_length_le {κ α : Type} [DecidableEq κ] (d : OD κ α) (k : κ) :
    (odMoveToEnd d k).length ≤ d.length := by
  unfold odMoveToEnd
  cases hf : odFind d k with
  | none => simp
  | some q =>
    simp only [List.length_append, List.length_singleton]
    have := odRemoveAll_length_lt hf
    omega

theorem odGet_moveToEnd_self {κ α : Type} [DecidableEq κ] (d : OD κ α) (k : κ) :
    odGet (odMoveToEnd d k) k = odGet d k := by
  unfold odMoveToEnd
  cases hf : odFind d k with
  | none => rfl
  | some q =>
    rw [odGet_append_of_none _ (odGet_removeAll_self d k)]
    have hk := odFind_eq_key hf
    simp [odGet, hk]
    rw [odGet_eq_find, hf]
    rfl

theorem odEvict_eq_drop {κ α : Type} (mk : Nat) (d : OD κ α) :
    odEvict mk d = d.drop (d.length - mk) := by
  induction d with
  | nil => simp [odEvict]
  | cons q t ih =>
    unfold odEvict
    by_cases h : mk < (q :: t).length
    · simp only [h, if_true, List.tail_cons]
      rw [ih]
      have : (q :: t).length - mk = (t.length - mk) + 1 := by simp at h ⊢; omega
      rw [this, List.drop_succ_cons]
    · simp only [h, if_false]
      have : (q :: t).length - mk = 0 := by simp at h ⊢; omega
      rw [this, List.drop_zero]

theorem odEvict_length_le {κ α : Type} (mk : Nat) (d : OD κ α) :
    (odEvict mk d).length ≤ mk ∨ odEvict mk d = d := by
  rw [odEvict_eq_drop]
  by_cases h : mk < d.length
  · left; rw [List.length_drop]; omega
  · right
    have : d.length - mk = 0 := by omega
    rw [this, List.drop_zero]

theorem odEvict_length {κ α : Type} (mk : Nat) (d : OD κ α) :
    (odEvict mk d).length ≤ mk ∨ (odEvict mk d).length ≤ d.length := by
  rcases odEvict_length_le mk d with h | h
  · exact Or.inl h
  · right; rw [h]

theorem odEvict_subset {κ α : Type} {mk : Nat} {d : OD κ α} {p : κ × α}
    (h : p ∈ odEvict mk d) : p ∈ d := by
  rw [odEvict_eq_drop] at h
  exact List.drop_subset _ _ h

theorem drop_append_of_le {α : Type} (l₂ : List α) :
    ∀ (l₁ : List α) (n : Nat), n ≤ l₁.length →
      (l₁ ++ l₂).drop n = l₁.drop n ++ l₂ := by
  intro l₁
  induction l₁ with
  | nil =>
    intro n hn
    simp at hn
    simp [hn]
  | cons a t ih =>
    intro n hn
    cases n with
    | zero => simp
    | succ m =>
      simp only [List.cons_append, List.drop_succ_cons]
      exact ih m (by simp at hn; omega)

theorem odGet_evict_last {κ α : Type} [DecidableEq κ] {e : OD κ α} {k : κ} {v : α}
    {mk : Nat} (hmk : 1 ≤ mk) (he : odGet e k = none) :
    odGet (odEvict mk (e ++ [(k, v)])) k = some v := by
  rw [odEvict_eq_drop]
  have hlen : (e ++ [(k, v)]).length - mk ≤ e.length := by simp; omega
  rw [drop_append_of_le _ _ _ hlen]
  have hd : odGet (e.drop ((e ++ [(k, v)]).length - mk)) k = none := by
    rw [odGet_eq_none_iff] at he ⊢
    intro p hp
    exact he p (List.drop_subset _ _ hp)
  rw [odGet_append_of_none _ hd]
  simp [odGet]

theorem odGet_insertPath {κ α : Type} [DecidableEq κ] (d : OD κ α) (k : κ) (v : α)
    {mk : Nat} (hmk : 1 ≤ mk) :
    odGet (odEvict mk (odMoveToEnd (odSet d k v) k)) k = some v := by
  unfold odMoveToEnd
  rw [odFind_set_self]
  exact odGet_evict_last hmk (odGet_removeAll_self _ _)

/-! ### Branch characterizations of the store operations -/

theorem pytrunc_nonneg {q : ℚ} (h : 0 ≤ q) : pytrunc q = ⌊q⌋ := if_pos h

theorem dedupe_check_absent (s : DedupeStore) (k : PyStr) (now : ℚ)
    (hw : ¬(s.window = 0)) (h : odGet s.store k = none) :
    s.check k now = (⟨false, k, none⟩,
      { s with store := odEvict s.max_keys (odMoveToEnd (odSet s.store k now) k) }) := by
  unfold DedupeStore.check
  rw [if_neg hw, h]

theorem dedupe_check_hit (s : DedupeStore) (k : PyStr) (now : ℚ) {ts : ℚ}
    (hw : ¬(s.window = 0)) (h : odGet s.store k = some ts)
    (hlt : now - ts < (s.window : ℚ)) :
    s.check k now = (⟨true, k, some (max 0 (pytrunc ((s.window : ℚ) - (now - ts))))⟩,
      { s with store := odMoveToEnd s.store k }) := by
  unfold DedupeStore.check
  rw [if_neg hw, h]
  simp [hlt]

theorem dedupe_check_stale (s : DedupeStore) (k : PyStr) (now : ℚ) {ts : ℚ}
    (hw : ¬(s.window = 0)) (h : odGet s.store k = some ts)
    (hge : ¬(now - ts < (s.window : ℚ))) :
    s.check k now = (⟨false, k, none⟩,
      { s with store := odEvict s.max_keys (odMoveToEnd (odSet s.store k now) k) }) := by
  unfold DedupeStore.check
  rw [if_neg hw, h]
  simp [hge]

/-- Claim C3: With a positive dedupe window (and the configured capacity at
least one key, as `load_config` guarantees): the first `DedupeStore.check`
of an unseen key is Accepted; a second check of the key strictly less than
`window` seconds later is Deduped with `retry_after = ⌊window − elapsed⌋`,
which is nonnegative; and a check at least `window` seconds after the
accepted check is Accepted again. -/
theorem C3_dedupe_window_roundtrip (s : DedupeStore) (k : PyStr) (t₁ t₂ t₃ : ℚ)
    (hw : 0 < s.window) (hmk : 1 ≤ s.max_keys)
    (habsent : odGet s.store k = none)
    (h2l : 0 ≤ t₂ - t₁) (h2u : t₂ - t₁ < (s.window : ℚ))
    (h3 : (s.window : ℚ) ≤ t₃ - t₁) :
    ((s.check k t₁).1.deduped = false) ∧
    (((s.check k t₁).2.check k t₂).1 =
      ⟨true, k, some ⌊(s.window : ℚ) - (t₂ - t₁)⌋⟩) ∧
    (0 ≤ ⌊(s.window : ℚ) - (t₂ - t₁)⌋) ∧
    (((s.check k t₁).2.check k t₃).1.deduped = false) := by
  have hw0 : ¬(s.window = 0) := by omega
  have hstep := dedupe_check_absent s k t₁ hw0 habsent
  have hs₁w : (s.check k t₁).2.window = s.window := by rw [hstep]
  have hs₁get : odGet (s.check k t₁).2.store k = some t₁ := by
    rw [hstep]
    exact odGet_insertPath s.store k t₁ hmk
  have hx : (0 : ℚ) ≤ (s.window : ℚ) - (t₂ - t₁) := by linarith
  have hfloor : 0 ≤ ⌊(s.window : ℚ) - (t₂ - t₁)⌋ := Int.floor_nonneg.mpr hx
  refine ⟨by rw [hstep], ?_, hfloor, ?_⟩
  · have hhit := dedupe_check_hit (s.check k t₁).2 k t₂ (by rw [hs₁w]; exact hw0)
      hs₁get (by rw [hs₁w]; linarith)
    rw [hhit, hs₁w]
    have : max 0 (pytrunc ((s.window : ℚ) - (t₂ - t₁))) =
        ⌊(s.window : ℚ) - (t₂ - t₁)⌋ := by
      rw [pytrunc_nonneg hx]
      omega
    rw [this]
  · have hstale := dedupe_check_stale (s.check k t₁).2 k t₃ (by rw [hs₁w]; exact hw0)
      hs₁get (by rw [hs₁w]; intro hc; linarith)
    rw [hstale]

/-- Witness for C3 at a concrete store and concrete times. -/
theorem C3_dedupe_window_roundtrip_witness :
    (((DedupeStore.init 10 100).check (pystr ("k")) 0).1.deduped = false) ∧
    ((((DedupeStore.init 10 100).check (pystr ("k")) 0).2.check (pystr ("k")) 3).1 =
      ⟨true, pystr ("k"), some ⌊((((10 : ℤ)) : ℚ)) - ((3 : ℚ) - 0)⌋⟩) ∧
    (0 ≤ ⌊((((10 : ℤ)) : ℚ)) - ((3 : ℚ) - 0)⌋) ∧
    ((((DedupeStore.init 10 100).check (pystr ("k")) 0).2.check (pystr ("k")) 12).1.deduped
      = false) :=
  C3_dedupe_window_roundtrip (DedupeStore.init 10 100) (pystr ("k")) 0 3 12
    (by decide) (by decide) (by decide) (by norm_num)
    (by norm_num [DedupeStore.init]) (by norm_num [DedupeStore.init])

theorem pytrunc_intCast (n : ℤ) : pytrunc ((n : ℚ)) = n := by
  unfold pytrunc
  split
  · exact Int.floor_intCast n
  · exact Int.ceil_intCast n

theorem rate_check_absent (s : RateLimiter) (k : PyStr) (now : ℚ)
    (hm : ¬(s.max_per_window = 0)) (h : odGet s.store k = none) :
    s.check k now = (⟨false, k, none, none⟩,
      { s with store := odEvict s.max_keys (odMoveToEnd (odSet s.store k (now, 1)) k) }) := by
  unfold RateLimiter.check
  rw [if_neg hm, h]

theorem rate_check_reset (s : RateLimiter) (k : PyStr) (now : ℚ) {w : ℚ} {c : Nat}
    (hm : ¬(s.max_per_window = 0)) (h : odGet s.store k = some (w, c))
    (hge : now - w ≥ (s.window : ℚ)) :
    s.check k now = (⟨false, k, none, none⟩,
      { s with store := odEvict s.max_keys (odMoveToEnd (odSet s.store k (now, 1)) k) }) := by
  unfold RateLimiter.check
  rw [if_neg hm, h]
  simp [hge]

theorem rate_check_increment (s : RateLimiter) (k : PyStr) (now : ℚ) {w : ℚ} {c : Nat}
    (hm : ¬(s.max_per_window = 0)) (h : odGet s.store k = some (w, c))
    (hlt : ¬(now - w ≥ (s.window : ℚ))) (hcnt : ¬(c ≥ s.max_per_window)) :
    s.check k now = (⟨false, k, none, none⟩,
      { s with store :=
          odEvict s.max_keys (odMoveToEnd (odSet s.store k (w, c + 1)) k) }) := by
  unfold RateLimiter.check
  rw [if_neg hm, h]
  simp [hlt, hcnt]

theorem rate_check_limited (s : RateLimiter) (k : PyStr) (now : ℚ) {w : ℚ} {c : Nat}
    (hm : ¬(s.max_per_window = 0)) (h : odGet s.store k = some (w, c))
    (hlt : ¬(now - w ≥ (s.window : ℚ))) (hcnt : c ≥ s.max_per_window) :
    s.check k now = (⟨true, k,
        some (pytrunc (max 0 (w + (s.window : ℚ) - now))),
        some (pytrunc (w + (s.window : ℚ)))⟩,
      { s with store := odMoveToEnd s.store k }) := by
  unfold RateLimiter.check
  rw [if_neg hm, h]
  simp [hlt, hcnt]

theorem rate_check_fields (s : RateLimiter) (k : PyStr) (now : ℚ) :
    (s.check k now).2.max_per_window = s.max_per_window ∧
    (s.check k now).2.window = s.window ∧
    (s.check k now).2.max_keys = s.max_keys := by
  by_cases hm : s.max_per_window = 0
  · unfold RateLimiter.check
    rw [if_pos hm]
    exact ⟨rfl, rfl, rfl⟩
  · cases hget : odGet s.store k with
    | none =>
      rw [rate_check_absent s k now hm hget]
      exact ⟨rfl, rfl, rfl⟩
    | some e =>
      obtain ⟨w, c⟩ := e
      by_cases h1 : now - w ≥ (s.window : ℚ)
      · rw [rate_check_reset s k now hm hget h1]
        exact ⟨rfl, rfl, rfl⟩
      · by_cases h2 : c ≥ s.max_per_window
        · rw [rate_check_limited s k now hm hget h1 h2]
          exact ⟨rfl, rfl, rfl⟩
        · rw [rate_check_increment s k now hm hget h1 h2]
          exact ⟨rfl, rfl, rfl⟩

theorem rlCalls_fields (k : PyStr) : ∀ (ts : List ℚ) (s : RateLimiter),
    (rlCalls s k ts).2.max_per_window = s.max_per_window ∧
    (rlCalls s k ts).2.window = s.window ∧
    (rlCalls s k ts).2.max_keys = s.max_keys := by
  intro ts
  induction ts with
  | nil => intro s; exact ⟨rfl, rfl, rfl⟩
  | cons t rest ih =>
    intro s
    have h1 := rate_check_fields s k t
    have h2 := ih (s.check k t).2
    simp only [rlCalls]
    exact ⟨h2.1.trans h1.1, h2.2.1.trans h1.2.1, h2.2.2.trans h1.2.2⟩

theorem rl_accept_run (k : PyStr) : ∀ (ts : List ℚ) (s : RateLimiter) (w : ℚ) (c : Nat),
    0 < s.max_per_window → 1 ≤ s.max_keys →
    odGet s.store k = some (w, c) → c + ts.length ≤ s.max_per_window →
    (∀ t ∈ ts, t - w < (s.window : ℚ)) →
    (rlCalls s k ts).1 = true ∧
    odGet (rlCalls s k ts).2.store k = some (w, c + ts.length) := by
  intro ts
  induction ts with
  | nil =>
    intro s w c hm hmk hget hbound htimes
    simpa [rlCalls] using hget
  | cons t rest ih =>
    intro s w c hm hmk hget hbound htimes
    simp only [List.length_cons] at hbound
    have hm0 : ¬(s.max_per_window = 0) := by omega
    have hcnt : ¬(c ≥ s.max_per_window) := by omega
    have hlt : ¬(t - w ≥ (s.window : ℚ)) := by
      have := htimes t (List.mem_cons_self t rest)
      intro hc
      linarith
    have hstep := rate_check_increment s k t hm0 hget hlt hcnt
    have hf := rate_check_fields s k t
    have hget' : odGet (s.check k t).2.store k = some (w, c + 1) := by
      rw [hstep]
      exact odGet_insertPath s.store k (w, c + 1) hmk
    have hrec := ih (s.check k t).2 w (c + 1)
      (by rw [hf.1]; exact hm) (by rw [hf.2.2]; exact hmk) hget'
      (by rw [hf.1]; omega)
      (by intro u hu
          rw [hf.2.1]
          exact htimes u (List.mem_cons_of_mem _ hu))
    have hnl : (s.check k t).1.rate_limited = false := by rw [hstep]
    constructor
    · simp only [rlCalls]
      simp [hnl, hrec.1]
    · simp only [rlCalls]
      have heq : c + 1 + rest.length = c + (rest.length + 1) := by omega
      rw [hrec.2, heq, List.length_cons]

/-- Claim C4: With `max_per_window = max > 0` (and capacity at least one key,
as `load_config` guarantees), for a fresh key `k`: `max` consecutive checks
within one window (the first at integer time `m`, fixing the window start)
are all Accepted, the `(max+1)`th check within the window returns
RateLimited with `reset_at = windowStart + windowSeconds` and
`retry_after = ⌊max 0 (windowStart + windowSeconds − now)⌋`, and a check
made once `now − windowStart ≥ windowSeconds` resets the entry to
`(now, count = 1)` and is Accepted. -/
theorem C4_rate_limit_window (s : RateLimiter) (k : PyStr) (m : ℤ) (ts : List ℚ)
    (t' t₃ : ℚ)
    (hm : 0 < s.max_per_window) (hmk : 1 ≤ s.max_keys)
    (habsent : odGet s.store k = none)
    (hlen : ts.length + 1 = s.max_per_window)
    (hts : ∀ t ∈ ts, t - (m : ℚ) < (s.window : ℚ))
    (ht' : t' - (m : ℚ) < (s.window : ℚ))
    (ht₃ : (s.window : ℚ) ≤ t₃ - (m : ℚ)) :
    (rlCalls s k ((m : ℚ) :: ts)).1 = true ∧
    ((rlCalls s k ((m : ℚ) :: ts)).2.check k t').1 =
      ⟨true, k, some ⌊max 0 ((m : ℚ) + (s.window : ℚ) - t')⌋, some (m + s.window)⟩ ∧
    (((rlCalls s k ((m : ℚ) :: ts)).2.check k t₃).1.rate_limited = false ∧
      odGet (((rlCalls s k ((m : ℚ) :: ts)).2.check k t₃).2).store k = some (t₃, 1)) := by
  have hm0 : ¬(s.max_per_window = 0) := by omega
  have hstep := rate_check_absent s k (m : ℚ) hm0 habsent
  have hf := rate_check_fields s k (m : ℚ)
  have hget1 : odGet (s.check k (m : ℚ)).2.store k = some ((m : ℚ), 1) := by
    rw [hstep]
    exact odGet_insertPath s.store k ((m : ℚ), 1) hmk
  have hrun := rl_accept_run k ts (s.check k (m : ℚ)).2 (m : ℚ) 1
    (by rw [hf.1]; exact hm) (by rw [hf.2.2]; exact hmk) hget1
    (by rw [hf.1]; omega)
    (by intro u hu
        rw [hf.2.1]
        exact hts u hu)
  obtain ⟨hacc, hgetEnd⟩ := hrun
  have hEnd : (rlCalls s k ((m : ℚ) :: ts)).2 = (rlCalls (s.check k (m : ℚ)).2 k ts).2 := by
    simp [rlCalls]
  have hfe := rlCalls_fields k ts (s.check k (m : ℚ)).2
  have hmaxE : (rlCalls s k ((m : ℚ) :: ts)).2.max_per_window = s.max_per_window := by
    rw [hEnd, hfe.1, hf.1]
  have hwinE : (rlCalls s k ((m : ℚ) :: ts)).2.window = s.window := by
    rw [hEnd, hfe.2.1, hf.2.1]
  have hmkE : (rlCalls s k ((m : ℚ) :: ts)).2.max_keys = s.max_keys := by
    rw [hEnd, hfe.2.2, hf.2.2]
  have hcnt1 : 1 + ts.length = s.max_per_window := by omega
  have hcntEnd : odGet (rlCalls s k ((m : ℚ) :: ts)).2.store k =
      some ((m : ℚ), s.max_per_window) := by
    rw [hEnd, hgetEnd, hcnt1]
  refine ⟨?_, ?_, ?_⟩
  · have hnl : (s.check k (m : ℚ)).1.rate_limited = false := by rw [hstep]
    simp only [rlCalls]
    simp [hnl, hacc]
  · have hlim := rate_check_limited (rlCalls s k ((m : ℚ) :: ts)).2 k t'
      (by rw [hmaxE]; exact hm0) hcntEnd
      (by rw [hwinE]; intro hc; linarith) (by rw [hmaxE])
    rw [hlim, hwinE]
    have h1 : pytrunc (max 0 ((m : ℚ) + (s.window : ℚ) - t')) =
        ⌊max 0 ((m : ℚ) + (s.window : ℚ) - t')⌋ :=
      pytrunc_nonneg (le_max_left _ _)
    have h2 : pytrunc ((m : ℚ) + (s.window : ℚ)) = m + s.window := by
      have hc : (m : ℚ) + (s.window : ℚ) = ((m + s.window : ℤ) : ℚ) := by push_cast; ring
      rw [hc, pytrunc_intCast]
    rw [h1, h2]
  · have hreset := rate_check_reset (rlCalls s k ((m : ℚ) :: ts)).2 k t₃
      (by rw [hmaxE]; exact hm0) hcntEnd (by rw [hwinE]; linarith)
    rw [hreset]
    exact ⟨rfl, odGet_insertPath _ k (t₃, 1) (by rw [hmkE]; exact hmk)⟩

/-- Witness for C4: limit 3 per 60-second window, calls at times 0, 1, 2,
a fourth call at time 3, and a resetting call at time 61. -/
theorem C4_rate_limit_window_witness :
    (rlCalls (RateLimiter.init 3 60 100) (pystr ("k")) (((0 : ℤ) : ℚ) :: [1, 2])).1 = true ∧
    ((rlCalls (RateLimiter.init 3 60 100) (pystr ("k"))
        (((0 : ℤ) : ℚ) :: [1, 2])).2.check (pystr ("k")) 3).1 =
      ⟨true, pystr ("k"),
        some ⌊max 0 (((0 : ℤ) : ℚ) + (((RateLimiter.init 3 60 100).window) : ℚ) - 3)⌋,
        some (0 + (RateLimiter.init 3 60 100).window)⟩ ∧
    (((rlCalls (RateLimiter.init 3 60 100) (pystr ("k"))
        (((0 : ℤ) : ℚ) :: [1, 2])).2.check (pystr ("k")) 61).1.rate_limited = false ∧
      odGet (((rlCalls (RateLimiter.init 3 60 100) (pystr ("k"))
        (((0 : ℤ) : ℚ) :: [1, 2])).2.check (pystr ("k")) 61).2).store (pystr ("k")) =
        some (61, 1)) :=
  C4_rate_limit_window (RateLimiter.init 3 60 100) (pystr ("k")) 0 [1, 2] 3 61
    (by decide) (by decide) (by decide) (by decide)
    (by intro t ht
        fin_cases ht <;> norm_num [RateLimiter.init])
    (by norm_num [RateLimiter.init]) (by norm_num [RateLimiter.init])

theorem odEvict_length_le_mk {κ α : Type} (mk : Nat) (d : OD κ α) :
    (odEvict mk d).length ≤ mk := by
  rw [odEvict_eq_drop, List.length_drop]
  omega

theorem dedupe_check_fields (s : DedupeStore) (k : PyStr) (now : ℚ) :
    (s.check k now).2.window = s.window ∧ (s.check k now).2.max_keys = s.max_keys := by
  by_cases hw : s.window = 0
  · unfold DedupeStore.check
    rw [if_pos hw]
    exact ⟨rfl, rfl⟩
  · cases hget : odGet s.store k with
    | none =>
      rw [dedupe_check_absent s k now hw hget]
      exact ⟨rfl, rfl⟩
    | some ts =>
      by_cases h1 : now - ts < (s.window : ℚ)
      · rw [dedupe_check_hit s k now hw hget h1]
        exact ⟨rfl, rfl⟩
      · rw [dedupe_check_stale s k now hw hget h1]
        exact ⟨rfl, rfl⟩

theorem dedupe_check_length (s : DedupeStore) (k : PyStr) (now : ℚ)
    (h : s.store.length ≤ s.max_keys) :
    (s.check k now).2.store.length ≤ (s.check k now).2.max_keys := by
  by_cases hw : s.window = 0
  · unfold DedupeStore.check
    rw [if_pos hw]
    exact h
  · cases hget : odGet s.store k with
    | none =>
      rw [dedupe_check_absent s k now hw hget]
      exact odEvict_length_le_mk _ _
    | some ts =>
      by_cases h1 : now - ts < (s.window : ℚ)
      · rw [dedupe_check_hit s k now hw hget h1]
        exact le_trans (odMoveToEnd_length_le _ _) h
      · rw [dedupe_check_stale s k now hw hget h1]
        exact odEvict_length_le_mk _ _

theorem rate_check_length (s : RateLimiter) (k : PyStr) (now : ℚ)
    (h : s.store.length ≤ s.max_keys) :
    (s.check k now).2.store.length ≤ (s.check k now).2.max_keys := by
  by_cases hm : s.max_per_window = 0
  · unfold RateLimiter.check
    rw [if_pos hm]
    exact h
  · cases hget : odGet s.store k with
    | none =>
      rw [rate_check_absent s k now hm hget]
      exact odEvict_length_le_mk _ _
    | some e =>
      obtain ⟨w, c⟩ := e
      by_cases h1 : now - w ≥ (s.window : ℚ)
      · rw [rate_check_reset s k now hm hget h1]
        exact odEvict_length_le_mk _ _
      · by_cases h2 : c ≥ s.max_per_window
        · rw [rate_check_limited s k now hm hget h1 h2]
          exact le_trans (odMoveToEnd_length_le _ _) h
        · rw [rate_check_increment s k now hm hget h1 h2]
          exact odEvict_length_le_mk _ _

theorem dsRunOps_length (ops : List (PyStr × ℚ)) : ∀ (s : DedupeStore),
    s.store.length ≤ s.max_keys →
    (dsRunOps s ops).store.length ≤ (dsRunOps s ops).max_keys := by
  induction ops with
  | nil => intro s h; exact h
  | cons op rest ih =>
    intro s h
    have hstep := dedupe_check_length s op.1 op.2 h
    exact ih (s.check op.1 op.2).2 hstep

theorem rlRunOps_length (ops : List (PyStr × ℚ)) : ∀ (s : RateLimiter),
    s.store.length ≤ s.max_keys →
    (rlRunOps s ops).store.length ≤ (rlRunOps s ops).max_keys := by
  induction ops with
  | nil => intro s h; exact h
  | cons op rest ih =>
    intro s h
    have hstep := rate_check_length s op.1 op.2 h
    exact ih (s.check op.1 op.2).2 hstep

theorem dsRunOps_max_keys (ops : List (PyStr × ℚ)) : ∀ (s : DedupeStore),
    (dsRunOps s ops).max_keys = s.max_keys := by
  induction ops with
  | nil => intro s; rfl
  | cons op rest ih =>
    intro s
    exact (ih (s.check op.1 op.2).2).trans (dedupe_check_fields s op.1 op.2).2

theorem rlRunOps_max_keys (ops : List (PyStr × ℚ)) : ∀ (s : RateLimiter),
    (rlRunOps s ops).max_keys = s.max_keys := by
  induction ops with
  | nil => intro s; rfl
  | cons op rest ih =>
    intro s
    exact (ih (s.check op.1 op.2).2).trans (rate_check_fields s op.1 op.2).2.2

theorem rlRunOps_max_per_window (ops : List (PyStr × ℚ)) : ∀ (s : RateLimiter),
    (rlRunOps s ops).max_per_window = s.max_per_window := by
  induction ops with
  | nil => intro s; rfl
  | cons op rest ih =>
    intro s
    exact (ih (s.check op.1 op.2).2).trans (rate_check_fields s op.1 op.2).1

/-- Claim C5: Starting from the empty stores the constructors build, after any
sequence of `check` operations each store holds at most its configured
maximum number of keys; and the eviction loop removes exactly the
least-recently-touched entries (the front of the recency order) until the
store is back within capacity. -/
theorem C5_capacity_bound_and_lru_eviction (W wR : ℤ) (M mkD mkR : Nat)
    (opsD opsR : List (PyStr × ℚ)) :
    (dsRunOps (DedupeStore.init W mkD) opsD).store.length ≤ mkD ∧
    (rlRunOps (RateLimiter.init M wR mkR) opsR).store.length ≤ mkR ∧
    (∀ (d : OD PyStr ℚ), odEvict mkD d = d.drop (d.length - mkD)) ∧
    (∀ (d : OD PyStr (ℚ × Nat)), odEvict mkR d = d.drop (d.length - mkR)) := by
  refine ⟨?_, ?_, fun d => odEvict_eq_drop mkD d, fun d => odEvict_eq_drop mkR d⟩
  · have := dsRunOps_length opsD (DedupeStore.init W mkD) (by simp [DedupeStore.init])
    rwa [dsRunOps_max_keys] at this
  · have := rlRunOps_length opsR (RateLimiter.init M wR mkR) (by simp [RateLimiter.init])
    rwa [rlRunOps_max_keys] at this

theorem rate_check_count_bound (s : RateLimiter) (k : PyStr) (now : ℚ)
    (hm : 0 < s.max_per_window)
    (hinv : ∀ p ∈ s.store, 1 ≤ p.2.2 ∧ p.2.2 ≤ s.max_per_window) :
    ∀ p ∈ (s.check k now).2.store,
      1 ≤ p.2.2 ∧ p.2.2 ≤ (s.check k now).2.max_per_window := by
  have hm0 : ¬(s.max_per_window = 0) := by omega
  rw [(rate_check_fields s k now).1]
  cases hget : odGet s.store k with
  | none =>
    rw [rate_check_absent s k now hm0 hget]
    intro p hp
    rcases odSet_mem (odMoveToEnd_subset (odEvict_subset hp)) with h | h
    · exact hinv p h
    · rw [h]; exact ⟨le_refl 1, hm⟩
  | some e =>
    obtain ⟨w, c⟩ := e
    by_cases h1 : now - w ≥ (s.window : ℚ)
    · rw [rate_check_reset s k now hm0 hget h1]
      intro p hp
      rcases odSet_mem (odMoveToEnd_subset (odEvict_subset hp)) with h | h
      · exact hinv p h
      · rw [h]; exact ⟨le_refl 1, hm⟩
    · by_cases h2 : c ≥ s.max_per_window
      · rw [rate_check_limited s k now hm0 hget h1 h2]
        intro p hp
        exact hinv p (odMoveToEnd_subset hp)
      · rw [rate_check_increment s k now hm0 hget h1 h2]
        intro p hp
        rcases odSet_mem (odMoveToEnd_subset (odEvict_subset hp)) with h | h
        · exact hinv p h
        · rw [h]
          refine ⟨?_, ?_⟩
          · show 1 ≤ c + 1
            omega
          · show c + 1 ≤ s.max_per_window
            omega

theorem rlRunOps_count_invariant (ops : List (PyStr × ℚ)) : ∀ (s : RateLimiter),
    0 < s.max_per_window →
    (∀ p ∈ s.store, 1 ≤ p.2.2 ∧ p.2.2 ≤ s.max_per_window) →
    ∀ p ∈ (rlRunOps s ops).store,
      1 ≤ p.2.2 ∧ p.2.2 ≤ (rlRunOps s ops).max_per_window := by
  induction ops with
  | nil => intro s hm hinv; exact hinv
  | cons op rest ih =>
    intro s hm hinv
    exact ih (s.check op.1 op.2).2
      (by rw [(rate_check_fields s op.1 op.2).1]; exact hm)
      (rate_check_count_bound s op.1 op.2 hm hinv)

/-- Claim C10: In every `RateLimiter` state reachable from the empty store with
`max_per_window = M > 0`, every stored entry's count lies in `[1, M]`; and a
check that comes back RateLimited leaves the checked key's window start and
count exactly as they were (a rejected request consumes no quota). -/
theorem C10_count_invariant_and_rejected_frame (M : Nat) (W : ℤ) (mk : Nat)
    (ops : List (PyStr × ℚ)) (s : RateLimiter) (k : PyStr) (now : ℚ)
    (hM : 0 < M)
    (hlim : (s.check k now).1.rate_limited = true) :
    (∀ p ∈ (rlRunOps (RateLimiter.init M W mk) ops).store,
      1 ≤ p.2.2 ∧ p.2.2 ≤ M) ∧
    odGet (s.check k now).2.store k = odGet s.store k := by
  constructor
  · intro p hp
    have := rlRunOps_count_invariant ops (RateLimiter.init M W mk) hM
      (by intro q hq; simp [RateLimiter.init] at hq) p hp
    rwa [rlRunOps_max_per_window] at this
  · by_cases hm0 : s.max_per_window = 0
    · exfalso
      unfold RateLimiter.check at hlim
      rw [if_pos hm0] at hlim
      simp at hlim
    · cases hget : odGet s.store k with
      | none =>
        exfalso
        rw [rate_check_absent s k now hm0 hget] at hlim
        simp at hlim
      | some e =>
        obtain ⟨w, c⟩ := e
        by_cases h1 : now - w ≥ (s.window : ℚ)
        · exfalso
          rw [rate_check_reset s k now hm0 hget h1] at hlim
          simp at hlim
        · by_cases h2 : c ≥ s.max_per_window
          · rw [rate_check_limited s k now hm0 hget h1 h2]
            show odGet (odMoveToEnd s.store k) k = some (w, c)
            rw [odGet_moveToEnd_self]
            exact hget
          · exfalso
            rw [rate_check_increment s k now hm0 hget h1 h2] at hlim
            simp at hlim

/-- Witness for C10: two operations on a fresh limiter, and a limited check
against a full window entry. -/
theorem C10_count_invariant_and_rejected_frame_witness :
    (∀ p ∈ (rlRunOps (RateLimiter.init 3 60 100)
        [(pystr ("a"), 0), (pystr ("a"), 1)]).store, 1 ≤ p.2.2 ∧ p.2.2 ≤ 3) ∧
    odGet ((⟨3, 60, 100, [(pystr ("a"), (0, 3))]⟩ : RateLimiter).check
        (pystr ("a")) 1).2.store (pystr ("a")) =
      odGet (⟨3, 60, 100, [(pystr ("a"), (0, 3))]⟩ : RateLimiter).store (pystr ("a")) :=
  C10_count_invariant_and_rejected_frame 3 60 100
    [(pystr ("a"), 0), (pystr ("a"), 1)]
    (⟨3, 60, 100, [(pystr ("a"), (0, 3))]⟩ : RateLimiter) (pystr ("a")) 1
    (by decide)
    (by rw [@rate_check_limited (⟨3, 60, 100, [(pystr ("a"), (0, 3))]⟩ : RateLimiter)
          (pystr ("a")) 1 0 3 (by decide) (by simp [odGet]) (by norm_num) (by decide)])

/-- Claim C6 counterexample: A `DedupeStore` with window 10 holding key `"k"`
last seen at time 0, checked again at time 5: the check returns Deduped, and
the stored last-seen timestamp is still 0, not the current time 5. -/
theorem C6_counterexample :
    (((⟨10, 2, [(pystr ("k"), 0)]⟩ : DedupeStore).check (pystr ("k")) 5).1.deduped = true) ∧
    odGet (((⟨10, 2, [(pystr ("k"), 0)]⟩ : DedupeStore).check (pystr ("k")) 5).2).store
      (pystr ("k")) = some 0 ∧
    ¬(odGet (((⟨10, 2, [(pystr ("k"), 0)]⟩ : DedupeStore).check (pystr ("k")) 5).2).store
      (pystr ("k")) = some 5) := by
  have hstep := @dedupe_check_hit (⟨10, 2, [(pystr ("k"), 0)]⟩ : DedupeStore)
    (pystr ("k")) 5 0 (by decide) (by simp [odGet]) (by norm_num)
  rw [hstep]
  refine ⟨rfl, ?_, ?_⟩
  · show odGet (odMoveToEnd [(pystr ("k"), 0)] (pystr ("k"))) (pystr ("k")) = some 0
    rw [odGet_moveToEnd_self]
    simp [odGet]
  · show ¬(odGet (odMoveToEnd [(pystr ("k"), 0)] (pystr ("k"))) (pystr ("k")) = some 5)
    rw [odGet_moveToEnd_self]
    simp [odGet]

/-- Claim C6 amended: On every `DedupeStore.check` with window > 0 (and
capacity at least one key): the entry is created with the current time if
the key is absent, and refreshed to the current time on an Accepted check of
a stale entry; on a check that returns Deduped the last-seen timestamp is
left unchanged and only the key's recency is refreshed (moved to
most-recently-used). -/
theorem C6_amended_timestamp_semantics (s : DedupeStore) (k : PyStr) (now : ℚ)
    (hw : 0 < s.window) (hmk : 1 ≤ s.max_keys) :
    odGet (s.check k now).2.store k =
      some ((odGet s.store k).elim now (fun ts =>
        if now - ts < (s.window : ℚ) then ts else now)) ∧
    ((s.check k now).1.deduped = true →
      (s.check k now).2.store = odMoveToEnd s.store k) := by
  have hw0 : ¬(s.window = 0) := by omega
  cases hget : odGet s.store k with
  | none =>
    rw [dedupe_check_absent s k now hw0 hget]
    refine ⟨odGet_insertPath s.store k now hmk, ?_⟩
    intro hcontra
    simp at hcontra
  | some ts =>
    by_cases hlt : now - ts < (s.window : ℚ)
    · rw [dedupe_check_hit s k now hw0 hget hlt]
      refine ⟨?_, fun _ => rfl⟩
      show odGet (odMoveToEnd s.store k) k = some (if now - ts < (s.window : ℚ) then ts else now)
      rw [if_pos hlt, odGet_moveToEnd_self]
      exact hget
    · rw [dedupe_check_stale s k now hw0 hget hlt]
      refine ⟨?_, ?_⟩
      · show odGet (odEvict s.max_keys (odMoveToEnd (odSet s.store k now) k)) k =
          some (if now - ts < (s.window : ℚ) then ts else now)
        rw [if_neg hlt]
        exact odGet_insertPath s.store k now hmk
      · intro hcontra
        simp at hcontra

/-- Witness for the amended C6 at the store of the counterexample. -/
theorem C6_amended_timestamp_semantics_witness :
    odGet ((c6Store.check (pystr ("k")) 5).2).store (pystr ("k")) =
      some ((odGet c6Store.store (pystr ("k"))).elim 5
        (fun ts => if 5 - ts < (c6Store.window : ℚ) then ts else 5)) ∧
    ((c6Store.check (pystr ("k")) 5).1.deduped = true →
      ((c6Store.check (pystr ("k")) 5).2).store =
        odMoveToEnd c6Store.store (pystr ("k"))) :=
  C6_amended_timestamp_semantics c6Store (pystr ("k")) 5 (by decide) (by decide)

/-- Claim C1 counterexample: A POST to `/v1/alerts` with `Content-Type:
text/plain` and no credentials (which are invalid under the configured
token mode, and whose body would also fail schema validation): the response
is 415 `UNSUPPORTED_MEDIA_TYPE`, not 401 `AUTH_INVALID`. -/
theorem C1_counterexample :
    _auth_ok ⟨"token", [pystr ("tok-0123456789")], none, 120, 30, 60, 10000⟩ none none
      = false ∧
    (do_POST ⟨"token", [pystr ("tok-0123456789")], none, 120, 30, 60, 10000⟩
      (fun s => s) (fun _ => false) (MailmuxOutcome.ok 200) 0 0
      (DedupeStore.init 120 10000) (RateLimiter.init 30 60 10000)
      ⟨"/v1/alerts", pystr ("text/plain"), none, none,
        Body.json ⟨pystr ("api"), pystr ("prod"), pystr ("E1"), pystr ("s"), pystr ("r")⟩⟩).1 =
      ⟨415, some ErrCode.UNSUPPORTED_MEDIA_TYPE, none, false⟩ ∧
    ¬((do_POST ⟨"token", [pystr ("tok-0123456789")], none, 120, 30, 60, 10000⟩
      (fun s => s) (fun _ => false) (MailmuxOutcome.ok 200) 0 0
      (DedupeStore.init 120 10000) (RateLimiter.init 30 60 10000)
      ⟨"/v1/alerts", pystr ("text/plain"), none, none,
        Body.json ⟨pystr ("api"), pystr ("prod"), pystr ("E1"), pystr ("s"), pystr ("r")⟩⟩).1.status
      = 401) := by
  refine ⟨by decide, by decide, by decide⟩

/-- Claim C1 amended: For every POST `/v1/alerts` request that passes the
media-type precondition (stage 1), authentication is evaluated strictly
before schema validation: invalid credentials yield the 401 `AUTH_INVALID`
rejection, both policy stores are left untouched, and the structural
validator is never invoked — the outcome is the same for every validator
verdict and every body. -/
theorem C1_amended_auth_before_validation (cfg : CasConfig) (sha : PyStr → PyStr)
    (validate : Alert → Bool) (upstream : MailmuxOutcome) (nowD nowR : ℚ)
    (ds : DedupeStore) (rl : RateLimiter) (req : Request)
    (hpath : req.path = "/v1/alerts")
    (hct : (pystr ("application/json")).isPrefixOf (pyLower req.contentType) = true)
    (hauth : _auth_ok cfg req.authorization req.secretHeader = false) :
    do_POST cfg sha validate upstream nowD nowR ds rl req =
      (⟨401, some ErrCode.AUTH_INVALID, none, false⟩, ds, rl) := by
  unfold do_POST
  rw [if_neg (by simp [hpath]), if_neg (by simp [hct]), if_pos (by simp [hauth])]

/-- Witness for the amended C1: a syntactically valid request with a wrong
bearer token is rejected with 401 whatever the validator would say. -/
theorem C1_amended_auth_before_validation_witness :
    do_POST ⟨"token", [pystr ("tok-0123456789")], none, 120, 30, 60, 10000⟩
      (fun s => s) (fun _ => false) (MailmuxOutcome.ok 200) 0 0
      (DedupeStore.init 120 10000) (RateLimiter.init 30 60 10000)
      ⟨"/v1/alerts", pystr ("application/json"), some (pystr ("Bearer wrong")), none,
        Body.json ⟨pystr ("api"), pystr ("prod"), pystr ("E1"), pystr ("s"), pystr ("r")⟩⟩ =
      (⟨401, some ErrCode.AUTH_INVALID, none, false⟩,
        DedupeStore.init 120 10000, RateLimiter.init 30 60 10000) :=
  C1_amended_auth_before_validation
    ⟨"token", [pystr ("tok-0123456789")], none, 120, 30, 60, 10000⟩
    (fun s => s) (fun _ => false) (MailmuxOutcome.ok 200) 0 0
    (DedupeStore.init 120 10000) (RateLimiter.init 30 60 10000)
    ⟨"/v1/alerts", pystr ("application/json"), some (pystr ("Bearer wrong")), none,
      Body.json ⟨pystr ("api"), pystr ("prod"), pystr ("E1"), pystr ("s"), pystr ("r")⟩⟩
    (by decide) (by decide) (by decide)

/-- Claim C2: Whenever `DedupeStore.check` comes back Deduped for a request
that reached the policy stage, the pipeline terminates with the 409
`DEDUPED` rejection and the `RateLimiter` is never consulted: its state
(all keys with their window starts and counts) is returned exactly as it
was. -/
theorem C2_deduped_preserves_rate_limiter (cfg : CasConfig) (sha : PyStr → PyStr)
    (validate : Alert → Bool) (upstream : MailmuxOutcome) (nowD nowR : ℚ)
    (ds : DedupeStore) (rl : RateLimiter) (req : Request) (a : Alert)
    (hpath : req.path = "/v1/alerts")
    (hct : (pystr ("application/json")).isPrefixOf (pyLower req.contentType) = true)
    (hauth : _auth_ok cfg req.authorization req.secretHeader = true)
    (hbody : req.body = Body.json a)
    (hvalid : validate a = true)
    (hdedup : (ds.check (dedupe_key sha a) nowD).1.deduped = true) :
    do_POST cfg sha validate upstream nowD nowR ds rl req =
      (⟨409, some ErrCode.DEDUPED, none, false⟩,
        (ds.check (dedupe_key sha a) nowD).2, rl) := by
  unfold do_POST
  rw [if_neg (by simp [hpath]), if_neg (by simp [hct]), if_neg (by simp [hauth]), hbody]
  simp [hvalid, hdedup]

/-- Witness for C2: a duplicate of `wAlert` five seconds after the stored
fingerprint is suppressed and the rate limiter state comes back unchanged. -/
theorem C2_deduped_preserves_rate_limiter_witness :
    do_POST wCfg (fun s => s) (fun _ => true) (MailmuxOutcome.ok 200) 5 5
      wDsHit (RateLimiter.init 30 60 100) wReq =
      (⟨409, some ErrCode.DEDUPED, none, false⟩,
        (wDsHit.check (dedupe_key (fun s => s) wAlert) 5).2,
        RateLimiter.init 30 60 100) :=
  C2_deduped_preserves_rate_limiter wCfg (fun s => s) (fun _ => true)
    (MailmuxOutcome.ok 200) 5 5 wDsHit (RateLimiter.init 30 60 100) wReq wAlert
    (by decide) (by decide) (by decide) (by decide) (by decide)
    (by rw [@dedupe_check_hit wDsHit (dedupe_key (fun s => s) wAlert) 5 0
          (by decide) (by simp [wDsHit, odGet]) (by norm_num [wDsHit])])

/-- Claim C9: For a request that clears every admission gate, the upstream
outcome is classified into exactly one case: a timeout yields 504
`MAILMUX_TIMEOUT`; any other transport failure yields 502 `MAILMUX_FAILED`
(upstream status 0); a non-2xx response yields 502 `MAILMUX_FAILED`
carrying the observed status; a 2xx response yields 202 with the
`DELIVERED` envelope carrying the observed status; and an unhandled fault
reaching the outer handler yields 500 `INTERNAL`. -/
theorem C9_upstream_classification (cfg : CasConfig) (sha : PyStr → PyStr)
    (validate : Alert → Bool) (upstream : MailmuxOutcome) (nowD nowR : ℚ)
    (ds : DedupeStore) (rl : RateLimiter) (req : Request) (a : Alert)
    (hpath : req.path = "/v1/alerts")
    (hct : (pystr ("application/json")).isPrefixOf (pyLower req.contentType) = true)
    (hauth : _auth_ok cfg req.authorization req.secretHeader = true)
    (hbody : req.body = Body.json a)
    (hvalid : validate a = true)
    (hdedup : (ds.check (dedupe_key sha a) nowD).1.deduped = false)
    (hrate : (rl.check (rate_limit_key a) nowR).1.rate_limited = false) :
    (upstream = MailmuxOutcome.timeout →
      (do_POST cfg sha validate upstream nowD nowR ds rl req).1 =
        ⟨504, some ErrCode.MAILMUX_TIMEOUT, none, false⟩) ∧
    (upstream = MailmuxOutcome.requestError →
      (do_POST cfg sha validate upstream nowD nowR ds rl req).1 =
        ⟨502, some ErrCode.MAILMUX_FAILED, some 0, false⟩) ∧
    (∀ st, upstream = MailmuxOutcome.ok st → 200 ≤ st → st < 300 →
      (do_POST cfg sha validate upstream nowD nowR ds rl req).1 =
        ⟨202, none, some st, true⟩) ∧
    (∀ st, upstream = MailmuxOutcome.ok st → ¬(200 ≤ st ∧ st < 300) →
      (do_POST cfg sha validate upstream nowD nowR ds rl req).1 =
        ⟨502, some ErrCode.MAILMUX_FAILED, some st, false⟩) ∧
    (upstream = MailmuxOutcome.raised →
      (do_POST cfg sha validate upstream nowD nowR ds rl req).1 =
        ⟨500, some ErrCode.INTERNAL, none, false⟩) := by
  refine ⟨?_, ?_, ?_, ?_, ?_⟩
  · intro h
    subst h
    unfold do_POST
    rw [if_neg (by simp [hpath]), if_neg (by simp [hct]), if_neg (by simp [hauth]), hbody]
    simp [hvalid, hdedup, hrate]
  · intro h
    subst h
    unfold do_POST
    rw [if_neg (by simp [hpath]), if_neg (by simp [hct]), if_neg (by simp [hauth]), hbody]
    simp [hvalid, hdedup, hrate]
  · intro st h h1 h2
    subst h
    unfold do_POST
    rw [if_neg (by simp [hpath]), if_neg (by simp [hct]), if_neg (by simp [hauth]), hbody]
    simp [hvalid, hdedup, hrate, h1, h2]
  · intro st h hn
    subst h
    unfold do_POST
    rw [if_neg (by simp [hpath]), if_neg (by simp [hct]), if_neg (by simp [hauth]), hbody]
    simp [hvalid, hdedup, hrate, hn]
  · intro h
    subst h
    unfold do_POST
    rw [if_neg (by simp [hpath]), if_neg (by simp [hct]), if_neg (by simp [hauth]), hbody]
    simp [hvalid, hdedup, hrate]

/-- Witness for C9 with fresh stores and a 200 upstream response. -/
theorem C9_upstream_classification_witness :
    (MailmuxOutcome.ok 200 = MailmuxOutcome.timeout →
      (do_POST wCfg (fun s => s) (fun _ => true) (MailmuxOutcome.ok 200) 0 0
        (DedupeStore.init 120 100) (RateLimiter.init 30 60 100) wReq).1 =
        ⟨504, some ErrCode.MAILMUX_TIMEOUT, none, false⟩) ∧
    (MailmuxOutcome.ok 200 = MailmuxOutcome.requestError →
      (do_POST wCfg (fun s => s) (fun _ => true) (MailmuxOutcome.ok 200) 0 0
        (DedupeStore.init 120 100) (RateLimiter.init 30 60 100) wReq).1 =
        ⟨502, some ErrCode.MAILMUX_FAILED, some 0, false⟩) ∧
    (∀ st, MailmuxOutcome.ok 200 = MailmuxOutcome.ok st → 200 ≤ st → st < 300 →
      (do_POST wCfg (fun s => s) (fun _ => true) (MailmuxOutcome.ok 200) 0 0
        (DedupeStore.init 120 100) (RateLimiter.init 30 60 100) wReq).1 =
        ⟨202, none, some st, true⟩) ∧
    (∀ st, MailmuxOutcome.ok 200 = MailmuxOutcome.ok st → ¬(200 ≤ st ∧ st < 300) →
      (do_POST wCfg (fun s => s) (fun _ => true) (MailmuxOutcome.ok 200) 0 0
        (DedupeStore.init 120 100) (RateLimiter.init 30 60 100) wReq).1 =
        ⟨502, some ErrCode.MAILMUX_FAILED, some st, false⟩) ∧
    (MailmuxOutcome.ok 200 = MailmuxOutcome.raised →
      (do_POST wCfg (fun s => s) (fun _ => true) (MailmuxOutcome.ok 200) 0 0
        (DedupeStore.init 120 100) (RateLimiter.init 30 60 100) wReq).1 =
        ⟨500, some ErrCode.INTERNAL, none, false⟩) :=
  C9_upstream_classification wCfg (fun s => s) (fun _ => true) (MailmuxOutcome.ok 200) 0 0
    (DedupeStore.init 120 100) (RateLimiter.init 30 60 100) wReq wAlert
    (by decide) (by decide) (by decide) (by decide) (by decide)
    (by rw [dedupe_check_absent (DedupeStore.init 120 100)
          (dedupe_key (fun s => s) wAlert) 0 (by decide) (by decide)])
    (by rw [rate_check_absent (RateLimiter.init 30 60 100)
          (rate_limit_key wAlert) 0 (by decide) (by decide)])

/-- Claim C8: Under a configuration whose shared secret (when set) is
non-empty, as `load_config` guarantees: the token sub-check passes iff a
non-empty bearer token from the allow-list is presented; the secret
sub-check passes iff the secret header is presented and equals the shared
secret; absent credentials never pass a sub-check; and each auth mode
accepts exactly per its sub-checks (`token`/`secret` the one sub-check,
`either` the disjunction, `both` the conjunction). -/
theorem C8_auth_mode_semantics (cfg : CasConfig) (auth sh : Option PyStr)
    (hsec : ¬(cfg.auth_shared_secret = some ([] : PyStr))) :
    (token_valid cfg auth = true ↔ specTokenValid cfg auth) ∧
    (secret_valid cfg sh = true ↔ specSecretValid cfg sh) ∧
    (auth = none → token_valid cfg auth = false) ∧
    (sh = none → secret_valid cfg sh = false) ∧
    (cfg.auth_mode = "token" → _auth_ok cfg auth sh = token_valid cfg auth) ∧
    (cfg.auth_mode = "secret" → _auth_ok cfg auth sh = secret_valid cfg sh) ∧
    (cfg.auth_mode = "either" →
      _auth_ok cfg auth sh = (token_valid cfg auth || secret_valid cfg sh)) ∧
    (cfg.auth_mode = "both" →
      _auth_ok cfg auth sh = (token_valid cfg auth && secret_valid cfg sh)) := by
  refine ⟨?_, ?_, ?_, ?_, ?_, ?_, ?_, ?_⟩
  · unfold token_valid specTokenValid
    cases hx : _extract_bearer_token auth with
    | none => simp
    | some t =>
      by_cases ht : t = []
      · simp [ht]
      · simp [ht]
  · unfold secret_valid specSecretValid
    cases sh with
    | none => simp
    | some v =>
      by_cases hv : v = []
      · subst hv
        simp
        intro h
        exact absurd h hsec
      · simp [hv]
        constructor
        · intro h
          exact h.symm
        · intro h
          exact h.symm
  · intro h
    subst h
    rfl
  · intro h
    subst h
    rfl
  · intro h
    unfold _auth_ok
    rw [h]
    rfl
  · intro h
    unfold _auth_ok
    rw [h]
    rfl
  · intro h
    unfold _auth_ok
    rw [h]
    rfl
  · intro h
    unfold _auth_ok
    rw [h]
    rfl

/-- Witness for C8 in mode `both` with matching token and secret. -/
theorem C8_auth_mode_semantics_witness :
    (token_valid ⟨"both", [pystr ("tok-0123456789")], some (pystr ("sec-0123456789")),
        120, 30, 60, 10000⟩ (some (pystr ("Bearer tok-0123456789"))) = true ↔
      specTokenValid ⟨"both", [pystr ("tok-0123456789")], some (pystr ("sec-0123456789")),
        120, 30, 60, 10000⟩ (some (pystr ("Bearer tok-0123456789")))) ∧
    (secret_valid ⟨"both", [pystr ("tok-0123456789")], some (pystr ("sec-0123456789")),
        120, 30, 60, 10000⟩ (some (pystr ("sec-0123456789"))) = true ↔
      specSecretValid ⟨"both", [pystr ("tok-0123456789")], some (pystr ("sec-0123456789")),
        120, 30, 60, 10000⟩ (some (pystr ("sec-0123456789")))) ∧
    (some (pystr ("Bearer tok-0123456789")) = none →
      token_valid ⟨"both", [pystr ("tok-0123456789")], some (pystr ("sec-0123456789")),
        120, 30, 60, 10000⟩ (some (pystr ("Bearer tok-0123456789"))) = false) ∧
    (some (pystr ("sec-0123456789")) = none →
      secret_valid ⟨"both", [pystr ("tok-0123456789")], some (pystr ("sec-0123456789")),
        120, 30, 60, 10000⟩ (some (pystr ("sec-0123456789"))) = false) ∧
    ((⟨"both", [pystr ("tok-0123456789")], some (pystr ("sec-0123456789")),
        120, 30, 60, 10000⟩ : CasConfig).auth_mode = "token" →
      _auth_ok ⟨"both", [pystr ("tok-0123456789")], some (pystr ("sec-0123456789")),
        120, 30, 60, 10000⟩ (some (pystr ("Bearer tok-0123456789")))
        (some (pystr ("sec-0123456789"))) =
      token_valid ⟨"both", [pystr ("tok-0123456789")], some (pystr ("sec-0123456789")),
        120, 30, 60, 10000⟩ (some (pystr ("Bearer tok-0123456789")))) ∧
    ((⟨"both", [pystr ("tok-0123456789")], some (pystr ("sec-0123456789")),
        120, 30, 60, 10000⟩ : CasConfig).auth_mode = "secret" →
      _auth_ok ⟨"both", [pystr ("tok-0123456789")], some (pystr ("sec-0123456789")),
        120, 30, 60, 10000⟩ (some (pystr ("Bearer tok-0123456789")))
        (some (pystr ("sec-0123456789"))) =
      secret_valid ⟨"both", [pystr ("tok-0123456789")], some (pystr ("sec-0123456789")),
        120, 30, 60, 10000⟩ (some (pystr ("sec-0123456789")))) ∧
    ((⟨"both", [pystr ("tok-0123456789")], some (pystr ("sec-0123456789")),
        120, 30, 60, 10000⟩ : CasConfig).auth_mode = "either" →
      _auth_ok ⟨"both", [pystr ("tok-0123456789")], some (pystr ("sec-0123456789")),
        120, 30, 60, 10000⟩ (some (pystr ("Bearer tok-0123456789")))
        (some (pystr ("sec-0123456789"))) =
      (token_valid ⟨"both", [pystr ("tok-0123456789")], some (pystr ("sec-0123456789")),
        120, 30, 60, 10000⟩ (some (pystr ("Bearer tok-0123456789"))) ||
       secret_valid ⟨"both", [pystr ("tok-0123456789")], some (pystr ("sec-0123456789")),
        120, 30, 60, 10000⟩ (some (pystr ("sec-0123456789"))))) ∧
    ((⟨"both", [pystr ("tok-0123456789")], some (pystr ("sec-0123456789")),
        120, 30, 60, 10000⟩ : CasConfig).auth_mode = "both" →
      _auth_ok ⟨"both", [pystr ("tok-0123456789")], some (pystr ("sec-0123456789")),
        120, 30, 60, 10000⟩ (some (pystr ("Bearer tok-0123456789")))
        (some (pystr ("sec-0123456789"))) =
      (token_valid ⟨"both", [pystr ("tok-0123456789")], some (pystr ("sec-0123456789")),
        120, 30, 60, 10000⟩ (some (pystr ("Bearer tok-0123456789"))) &&
       secret_valid ⟨"both", [pystr ("tok-0123456789")], some (pystr ("sec-0123456789")),
        120, 30, 60, 10000⟩ (some (pystr ("sec-0123456789"))))) :=
  C8_auth_mode_semantics
    ⟨"both", [pystr ("tok-0123456789")], some (pystr ("sec-0123456789")), 120, 30, 60, 10000⟩
    (some (pystr ("Bearer tok-0123456789"))) (some (pystr ("sec-0123456789")))
    (by decide)

/-! ### Lemmas about stripping, lowering and splitting -/

theorem pyWs_lowerChar (n : Nat) : pyWs (pyLowerChar n) = pyWs n := by
  unfold pyLowerChar
  split
  · simp only [pyWs, decide_eq_decide]
    omega
  · rfl

theorem wsDropFront_ws_append {l : PyStr} (x : PyStr) (h : allWs l) :
    wsDropFront (l ++ x) = wsDropFront x := by
  induction l with
  | nil => rfl
  | cons c t ih =>
    have hc := h c (List.mem_cons_self c t)
    simp only [List.cons_append, wsDropFront, hc, if_true]
    exact ih (fun d hd => h d (List.mem_cons_of_mem _ hd))

theorem wsDropFront_all {l : PyStr} (h : allWs l) : wsDropFront l = [] := by
  have := wsDropFront_ws_append [] h
  simpa using this

theorem wsDropFront_head_not {c : Nat} (l : PyStr) (h : pyWs c = false) :
    wsDropFront (c :: l) = c :: l := by
  simp [wsDropFront, h]

theorem wsDropFront_append (x r : PyStr) :
    wsDropFront (x ++ r) =
      if wsDropFront x = [] then wsDropFront r else wsDropFront x ++ r := by
  induction x with
  | nil => simp [wsDropFront]
  | cons c t ih =>
    by_cases hc : pyWs c = true
    · simp only [List.cons_append, wsDropFront, hc, if_true]
      exact ih
    · simp only [Bool.not_eq_true] at hc
      simp [wsDropFront, hc]

theorem pyStrip_ws_append {l : PyStr} (x : PyStr) (h : allWs l) :
    pyStrip (l ++ x) = pyStrip x := by
  unfold pyStrip
  rw [wsDropFront_ws_append x h]

theorem allWs_reverse {l : PyStr} (h : allWs l) : allWs l.reverse := by
  intro c hc
  exact h c (List.mem_reverse.mp hc)

theorem pyStrip_append_ws {r : PyStr} (x : PyStr) (h : allWs r) :
    pyStrip (x ++ r) = pyStrip x := by
  unfold pyStrip
  rw [wsDropFront_append x r]
  by_cases hx : wsDropFront x = []
  · rw [if_pos hx, hx, wsDropFront_all h]
  · rw [if_neg hx, List.reverse_append]
    rw [wsDropFront_ws_append _ (allWs_reverse h)]

theorem pyStrip_padded_core {lead trail : PyStr} (c : PyStr)
    (hl : allWs lead) (ht : allWs trail) :
    pyStrip (lead ++ c ++ trail) = pyStrip c := by
  rw [List.append_assoc, pyStrip_ws_append _ hl, pyStrip_append_ws _ ht]

theorem wsDropFront_lower (s : PyStr) :
    wsDropFront (pyLower s) = pyLower (wsDropFront s) := by
  induction s with
  | nil => rfl
  | cons c t ih =>
    by_cases hc : pyWs c = true
    · have hlc : pyWs (pyLowerChar c) = true := by rw [pyWs_lowerChar]; exact hc
      simp only [pyLower, List.map_cons, wsDropFront, hlc, hc, if_true]
      exact ih
    · simp only [Bool.not_eq_true] at hc
      have hlc : pyWs (pyLowerChar c) = false := by rw [pyWs_lowerChar]; exact hc
      simp [pyLower, wsDropFront, hlc, hc]

theorem pyLower_reverse (s : PyStr) : pyLower s.reverse = (pyLower s).reverse := by
  simp [pyLower, List.map_reverse]

theorem pyLower_strip (s : PyStr) : pyLower (pyStrip s) = pyStrip (pyLower s) := by
  unfold pyStrip
  rw [wsDropFront_lower s, ← pyLower_reverse (wsDropFront s), wsDropFront_lower,
    ← pyLower_reverse]

theorem nkp_caseWs {s t : PyStr} (h : CaseWsVariant s t) :
    _normalize_key_part s = _normalize_key_part t := by
  obtain ⟨l₁, c₁, r₁, l₂, c₂, r₂, hl₁, hr₁, hl₂, hr₂, hcase, hs, ht⟩ := h
  unfold _normalize_key_part
  rw [hs, ht, pyStrip_padded_core c₁ hl₁ hr₁, pyStrip_padded_core c₂ hl₂ hr₂,
    pyLower_strip, pyLower_strip, hcase]

theorem splitAux_word : ∀ (w l acc : PyStr), (∀ c ∈ w, pyWs c = false) →
    splitAux (w ++ l) acc = splitAux l (w.reverse ++ acc) := by
  intro w
  induction w with
  | nil => intro l acc _; simp
  | cons c t ih =>
    intro l acc hw
    have hc := hw c (List.mem_cons_self c t)
    have ih' := ih l (c :: acc) (fun d hd => hw d (List.mem_cons_of_mem _ hd))
    simp only [List.cons_append, splitAux, hc, Bool.false_eq_true, if_false,
      List.append_eq]
    rw [ih']
    simp [List.append_assoc]

theorem splitAux_ws : ∀ (sep l : PyStr), allWs sep →
    splitAux (sep ++ l) [] = splitAux l [] := by
  intro sep
  induction sep with
  | nil => intro l _; rfl
  | cons c t ih =>
    intro l hsep
    have hc := hsep c (List.mem_cons_self c t)
    simp only [List.cons_append, splitAux, hc, if_true]
    exact ih l (fun d hd => hsep d (List.mem_cons_of_mem _ hd))

theorem splitAux_single {w : PyStr} (hne : ¬(w = [])) (hw : ∀ c ∈ w, pyWs c = false) :
    splitAux w [] = [w] := by
  have h := splitAux_word w [] [] hw
  rw [List.append_nil] at h
  rw [h]
  simp [splitAux, hne]

theorem wordsCore_nil {ws : List PyStr} {core : PyStr} (h : WordsCore ws core) :
    core = [] → ws = [] := by
  induction h with
  | nil => intro _; rfl
  | last w hne hw => intro hc; exact absurd hc hne
  | cons w sep rest ws' hne hw hsepne hsep hws hrest ih =>
    intro hc
    simp at hc
    exact absurd hc.1 hne

theorem wordsCore_head {ws : List PyStr} {core : PyStr} (h : WordsCore ws core) :
    core = [] ∨ ∃ c t, core = c :: t ∧ pyWs c = false := by
  induction h with
  | nil => exact Or.inl rfl
  | last w hne hw =>
    cases w with
    | nil => exact absurd rfl hne
    | cons c t => exact Or.inr ⟨c, t, rfl, hw c (List.mem_cons_self c t)⟩
  | cons w sep rest ws' hne hw hsepne hsep hws hrest ih =>
    cases w with
    | nil => exact absurd rfl hne
    | cons c t =>
      exact Or.inr ⟨c, t ++ sep ++ rest, by simp [List.append_assoc],
        hw c (List.mem_cons_self c t)⟩

theorem wordsCore_rev_head {ws : List PyStr} {core : PyStr} (h : WordsCore ws core) :
    core = [] ∨ ∃ c t, core.reverse = c :: t ∧ pyWs c = false := by
  induction h with
  | nil => exact Or.inl rfl
  | last w hne hw =>
    cases hr : w.reverse with
    | nil => exact absurd (by simpa using hr) hne
    | cons c t =>
      refine Or.inr ⟨c, t, rfl, hw c ?_⟩
      have hcw : c ∈ w.reverse := by rw [hr]; exact List.mem_cons_self c t
      exact List.mem_reverse.mp hcw
  | cons w sep rest ws' hne hw hsepne hsep hws hrest ih =>
    rcases ih with hnil | ⟨c, t, hct, hc⟩
    · exact absurd (wordsCore_nil hrest hnil) hws
    · refine Or.inr ⟨c, t ++ sep.reverse ++ w.reverse, ?_, hc⟩
      simp only [List.reverse_append, hct]
      simp [List.append_assoc]

theorem pyStrip_core {ws : List PyStr} {core : PyStr} (h : WordsCore ws core) :
    pyStrip core = core := by
  rcases wordsCore_head h with hnil | ⟨c, t, hct, hc⟩
  · rw [hnil]; rfl
  · rcases wordsCore_rev_head h with hnil | ⟨c', t', hct', hc'⟩
    · rw [hnil]; rfl
    · unfold pyStrip
      rw [hct, wsDropFront_head_not t hc, ← hct, hct', wsDropFront_head_not t' hc',
        ← hct', List.reverse_reverse]

theorem splitAux_core {ws : List PyStr} {core : PyStr} (h : WordsCore ws core) :
    splitAux core [] = ws := by
  induction h with
  | nil => rfl
  | last w hne hw => exact splitAux_single hne hw
  | cons w sep rest ws' hne hw hsepne hsep hws hrest ih =>
    rw [List.append_assoc, splitAux_word w (sep ++ rest) [] hw]
    obtain ⟨s₀, sep', rfl⟩ : ∃ s₀ sep', sep = s₀ :: sep' := by
      cases sep with
      | nil => exact absurd rfl hsepne
      | cons x y => exact ⟨x, y, rfl⟩
    have hs₀ : pyWs s₀ = true := hsep s₀ (List.mem_cons_self _ _)
    simp only [List.append_nil, List.cons_append, splitAux, hs₀, if_true,
      List.append_eq]
    rw [if_neg (by simp [hne])]
    rw [List.reverse_reverse,
      splitAux_ws sep' rest (fun d hd => hsep d (List.mem_cons_of_mem _ hd)), ih]

theorem normalize_text_padded {ws : List PyStr} {s : PyStr} (h : Padded ws s) :
    _normalize_text s = joinWords ws := by
  obtain ⟨lead, core, trail, hl, ht, hcore, rfl⟩ := h
  unfold _normalize_text pySplit
  rw [pyStrip_padded_core core hl ht, pyStrip_core hcore, splitAux_core hcore]

theorem allWs_of_all {l : PyStr} (h : l.all (fun c => pyWs c) = true) : allWs l := by
  intro c hc
  exact List.all_eq_true.mp h c hc

/-- Claim C7: `dedupe_key` and `rate_limit_key` are invariant under the
normalizations the code performs: if the two alerts' `service`,
`environment`, `error_code` and `resource` fields differ only in letter
case and/or leading-and-trailing whitespace, and (for the dedupe key) their
summaries are the same word sequence up to surrounding or repeated internal
whitespace, then both functions return equal keys — for every hash
function, so in particular for SHA-256. -/
theorem C7_key_normalization_invariance (sha : PyStr → PyStr) (a b : Alert)
    (ws : List PyStr)
    (hsvc : CaseWsVariant a.service b.service)
    (henv : CaseWsVariant a.environment b.environment)
    (herr : CaseWsVariant a.error_code b.error_code)
    (hres : CaseWsVariant a.resource b.resource)
    (hsa : Padded ws a.summary) (hsb : Padded ws b.summary) :
    rate_limit_key a = rate_limit_key b ∧ dedupe_key sha a = dedupe_key sha b := by
  have h1 := nkp_caseWs hsvc
  have h2 := nkp_caseWs henv
  have h3 := nkp_caseWs herr
  have h4 := nkp_caseWs hres
  have h5 : _normalize_text a.summary = _normalize_text b.summary := by
    rw [normalize_text_padded hsa, normalize_text_padded hsb]
  unfold rate_limit_key dedupe_key
  rw [h1, h3]
  refine ⟨rfl, ?_⟩
  rw [h2, h4, h5]

/-- Witness for C7 at the concrete alert pair `c7a`, `c7b`. -/
theorem C7_key_normalization_invariance_witness :
    rate_limit_key c7a = rate_limit_key c7b ∧
    dedupe_key (fun s => s) c7a = dedupe_key (fun s => s) c7b :=
  C7_key_normalization_invariance (fun s => s) c7a c7b
    [pystr ("db"), pystr ("down")]
    ⟨pystr ("  "), pystr ("Payments"), pystr (" "), [], pystr ("payments"), [],
      allWs_of_all (by decide), allWs_of_all (by decide), allWs_of_all (by decide),
      allWs_of_all (by decide), by decide, by decide, by decide⟩
    ⟨[], pystr ("PROD"), [], pystr (" "), pystr ("prod"), [],
      allWs_of_all (by decide), allWs_of_all (by decide), allWs_of_all (by decide),
      allWs_of_all (by decide), by decide, by decide, by decide⟩
    ⟨[], pystr ("DB_DOWN"), [], [], pystr ("db_down"), pystr (" "),
      allWs_of_all (by decide), allWs_of_all (by decide), allWs_of_all (by decide),
      allWs_of_all (by decide), by decide, by decide, by decide⟩
    ⟨pystr (" "), pystr ("srv-1"), pystr (" "), [], pystr ("SRV-1"), [],
      allWs_of_all (by decide), allWs_of_all (by decide), allWs_of_all (by decide),
      allWs_of_all (by decide), by decide, by decide, by decide⟩
    ⟨[], pystr ("db") ++ pystr ("  ") ++ pystr ("down"), [],
      allWs_of_all (by decide), allWs_of_all (by decide),
      WordsCore.cons (pystr ("db")) (pystr ("  ")) (pystr ("down"))
        [pystr ("down")] (by decide) (by decide) (by decide)
        (allWs_of_all (by decide)) (by decide)
        (WordsCore.last (pystr ("down")) (by decide) (by decide)),
      by decide⟩
    ⟨pystr (" "), pystr ("db") ++ pystr (" ") ++ pystr ("down"), pystr (" "),
      allWs_of_all (by decide), allWs_of_all (by decide),
      WordsCore.cons (pystr ("db")) (pystr (" ")) (pystr ("down"))
        [pystr ("down")] (by decide) (by decide) (by decide)
        (allWs_of_all (by decide)) (by decide)
        (WordsCore.last (pystr ("down")) (by decide) (by decide)),
      by decide⟩
